import Mathlib

/-!
Shallow embedding of `pyunifiprotect/unifi_data.py`: the websocket frame
decoder (`decode_ws_frame`), the event projector (`process_event`), the
retention store (`FixSizeOrderedDict`) and the event state machine
(`ProtectStateMachine` / `event_from_ws_frames`).

Python conventions embedded here:
  * bytes are `Nat` values (0..255); `struct.unpack "!bbbbi"` reads signed
    8-bit and big-endian signed 32-bit integers;
  * Python slice semantics (`frame[a:b]`) clamp indices and interpret a
    negative bound as counting from the end of the buffer;
  * a Python exception is an `Except.error`;
  * `dict.get` returns `None` both for an absent key and for a stored
    `null`, which `Option.none` models;
  * Python truthiness of an optional integer: `None` and `0` are falsy.
-/

namespace UnifiData

/-- Python exceptions raised by the embedded code. `structError` is the
`struct.error` from an undersized unpack buffer, `zlibError` a
`zlib.error` from corrupt DEFLATE data, `unknownPayloadFormat` the
`ValueError` raised by `ProtectWSPayloadFormat(value)` on an unlisted tag,
`typeError` the `TypeError` from `float(None)` or an order comparison with
`None`, `badModelKey` and `badAction` the two explicit `ValueError`s in
`event_from_ws_frames`. -/
inductive PyError where
  | structError
  | zlibError
  | unknownPayloadFormat
  | typeError
  | badModelKey
  | badAction
deriving Repr, DecidableEq

/-- `WS_HEADER_SIZE = 8`. -/
def WS_HEADER_SIZE : Nat := 8

/-- `MAX_SUPPORTED_CAMERAS = 256`. -/
def MAX_SUPPORTED_CAMERAS : Nat := 256

/-- `MAX_EVENT_HISTORY_IN_STATE_MACHINE = MAX_SUPPORTED_CAMERAS * 2`. -/
def MAX_EVENT_HISTORY_IN_STATE_MACHINE : Nat := MAX_SUPPORTED_CAMERAS * 2

/-- `LIVE_RING_FROM_WEBSOCKET = -1`. -/
def LIVE_RING_FROM_WEBSOCKET : Int := -1

/-- `class ProtectWSPayloadFormat(enum.Enum)`: the three known payload
format tags. -/
inductive ProtectWSPayloadFormat where
  | JSON
  | UTF8String
  | NodeBuffer
deriving Repr, DecidableEq

/-- `ProtectWSPayloadFormat(value)`: the enum constructor call, raising
`ValueError` for a value outside {1, 2, 3}. -/
def mkProtectWSPayloadFormat (value : Int) : Except PyError ProtectWSPayloadFormat :=
  if value = 1 then .ok .JSON
  else if value = 2 then .ok .UTF8String
  else if value = 3 then .ok .NodeBuffer
  else .error .unknownPayloadFormat

/-- Interpretation of a byte as a signed 8-bit integer (format char `b`). -/
def signed8 (b : Nat) : Int :=
  if b < 128 then (b : Int) else (b : Int) - 256

/-- Interpretation of a 4-byte big-endian group as a signed 32-bit integer
(format char `i` with `!` byte order). -/
def signed32 (b0 b1 b2 b3 : Nat) : Int :=
  let n : Nat := b0 * 2 ^ 24 + b1 * 2 ^ 16 + b2 * 2 ^ 8 + b3
  if n < 2 ^ 31 then (n : Int) else (n : Int) - 2 ^ 32

/-- Python slice `l[start:stop]` (step 1): negative bounds count from the
end of the list, and both bounds are clamped to `[0, len]`. -/
def pySlice (l : List α) (start stop : Int) : List α :=
  let n : Int := l.length
  let norm : Int → Int := fun i => if i < 0 then max (n + i) 0 else min i n
  ((l.take (norm stop).toNat).drop (norm start).toNat)

/-- Byte of the buffer at an index (only consulted after the in-bounds
check that `struct.unpack` performs on the header slice). -/
def byteAt (frame : List Nat) (i : Nat) : Nat := frame.getD i 0

/-- The `payload_format` field of the header at `position`. -/
def headerFormat (frame : List Nat) (position : Nat) : Int :=
  signed8 (byteAt frame (position + 1))

/-- The `deflated` field of the header at `position`. -/
def headerDeflated (frame : List Nat) (position : Nat) : Int :=
  signed8 (byteAt frame (position + 2))

/-- The `payload_size` field of the header at `position`: big-endian
signed 32-bit integer of bytes 4..7. -/
def headerPayloadSize (frame : List Nat) (position : Nat) : Int :=
  signed32 (byteAt frame (position + 4)) (byteAt frame (position + 5))
    (byteAt frame (position + 6)) (byteAt frame (position + 7))

/-- The raw (possibly still compressed) payload slice
`frame[position + 8 : position + 8 + payload_size]`. -/
def rawPayload (frame : List Nat) (position : Nat) : List Nat :=
  pySlice frame ((position : Int) + 8)
    ((position : Int) + 8 + headerPayloadSize frame position)

/-- `decode_ws_frame(frame, position)`. The `inflate` parameter embeds the
external `zlib.decompress`; the repository code only calls it. Unpacking
fewer than 8 remaining bytes raises `struct.error`; the declared payload
size is never validated — the payload is whatever the Python slice yields.
Decompression happens before the format tag is checked, matching the
statement order of the source. -/
def decode_ws_frame (inflate : List Nat → Except PyError (List Nat))
    (frame : List Nat) (position : Nat) :
    Except PyError (List Nat × ProtectWSPayloadFormat × Int) :=
  if position + WS_HEADER_SIZE ≤ frame.length then
    let payloadSize := headerPayloadSize frame position
    match (if headerDeflated frame position ≠ 0 then inflate (rawPayload frame position)
           else .ok (rawPayload frame position)) with
    | .error err => .error err
    | .ok payload =>
        match mkProtectWSPayloadFormat (headerFormat frame position) with
        | .error err => .error err
        | .ok fmt =>
            .ok (payload, fmt, (position : Int) + (WS_HEADER_SIZE : Int) + payloadSize)
  else
    .error .structError

/-- Truthiness of an optional Python integer: `None` and `0` are falsy. -/
def truthy : Option Int → Bool
  | none => false
  | some v => v ≠ 0

/-- The fields of an event JSON body that `process_event` reads. `none`
models both an absent key and a stored `null` (indistinguishable through
`dict.get`). Timestamps are epoch milliseconds. -/
structure RawEvent where
  start : Option Int := none
  «end» : Option Int := none
  type : Option String := none
  score : Option Int := none
  smartDetectTypes : Option (List String) := none
  thumbnail : Option String := none
  heatmap : Option String := none
deriving Repr, DecidableEq

/-- The dictionary built by `process_event`. `event_start` carries the raw
start milliseconds when truthy (the source formats them into a local-time
string, which no property here depends on). `last_motion` / `last_ring`
are `some` exactly when the corresponding key was added to the dict.
`event_thumbnail` / `event_heatmap` are `some` exactly when the key was
added (the source adds them only for a non-`None` source field).
`event_length` is exact: `round(end/1000 - start/1000, 3)` on integer
milliseconds equals `(end - start)/1000`, a number with at most three
decimal places. -/
structure ProcessedEvent where
  event_on : Bool
  event_ring_on : Bool
  event_type : Option String
  event_start : Option Int
  event_length : Rat
  event_score : Option Int
  event_object : Option (List String)
  event_thumbnail : Option String
  event_heatmap : Option String
  last_motion : Option (Option Int)
  last_ring : Option (Option Int)
deriving Repr, DecidableEq

/-- `EVENT_MOTION = "motion"`. -/
def EVENT_MOTION : String := "motion"

/-- `EVENT_SMART_DETECT_ZONE = "smartDetectZone"`. -/
def EVENT_SMART_DETECT_ZONE : String := "smartDetectZone"

/-- `start_time = _process_timestamp(start) if start else None`, kept as
the raw milliseconds (the source formats them into a local-time string,
which no property here depends on). -/
def computeStartTime (start : Option Int) : Option Int :=
  if truthy start then start else none

/-- `if end: event_length = round(float(end)/1000 - float(start)/1000, 3)`
with `event_length = 0` otherwise. `float(None)` raises `TypeError`, so a
truthy `end` with `start` equal to `None` is an exception. The rounding is
exact on integer milliseconds, hence omitted. -/
def computeEventLength (start end_ : Option Int) : Except PyError Rat :=
  if truthy end_ then
    match end_, start with
    | some e, some s => .ok (((e : Rat) - (s : Rat)) / 1000)
    | _, none => .error .typeError
    | none, _ => .ok 0
  else
    .ok 0

/-- `score is not None and int(score) >= minimum_score`. -/
def computeEventOn (score : Option Int) (minimum_score : Int) : Bool :=
  match score with
  | some sc => decide (sc ≥ minimum_score)
  | none => false

/-- The ring branch's flag: `True` when `ring_interval` is the live
websocket sentinel or the event has no truthy `end`, otherwise
`start >= ring_interval and end >= ring_interval`. Comparing `None` to an
integer raises `TypeError` (unreachable here, since a truthy `end` with
`start` equal to `None` already raised in the length computation). -/
def computeRingOn (start end_ : Option Int) (ring_interval : Int) : Except PyError Bool :=
  if ring_interval = LIVE_RING_FROM_WEBSOCKET ∨ ¬ truthy end_ then
    .ok true
  else
    match start, end_ with
    | some s, some e => .ok (decide (s ≥ ring_interval) && decide (e ≥ ring_interval))
    | _, _ => .error .typeError

/-- The two trailing `if ... is not None` statements that copy
`thumbnail` / `heatmap` into the processed dict only when present. -/
def applyThumbnailHeatmap (event : RawEvent) (pe : ProcessedEvent) : ProcessedEvent :=
  let withThumb : ProcessedEvent :=
    match event.thumbnail with
    | some t => { pe with event_thumbnail := some t }
    | none => pe
  match event.heatmap with
  | some h => { withThumb with event_heatmap := some h }
  | none => withThumb

/-- `process_event(event, minimum_score, ring_interval)`, with exception
propagation written as explicit matches. -/
def process_event (event : RawEvent) (minimum_score : Int) (ring_interval : Int) :
    Except PyError ProcessedEvent :=
  let start := event.start
  let end_ := event.«end»
  let event_type := event.type
  let score := event.score
  let start_time := computeStartTime start
  match computeEventLength start end_ with
  | .error err => .error err
  | .ok event_length =>
      let base : ProcessedEvent :=
        { event_on := false
          event_ring_on := false
          event_type := event_type
          event_start := start_time
          event_length := event_length
          event_score := score
          event_object := event.smartDetectTypes
          event_thumbnail := none
          event_heatmap := none
          last_motion := none
          last_ring := none }
      if event_type = some EVENT_MOTION ∨ event_type = some EVENT_SMART_DETECT_ZONE then
        .ok (applyThumbnailHeatmap event
          { base with
              last_motion := some start_time
              event_on := computeEventOn score minimum_score })
      else
        match computeRingOn start end_ ring_interval with
        | .error err => .error err
        | .ok ring_on =>
            .ok (applyThumbnailHeatmap event
              { base with
                  last_ring := some start_time
                  event_ring_on := ring_on })

/-- Whether an `Except` computation completed without an exception. -/
def isOk : Except ε α → Bool
  | .ok _ => true
  | .error _ => false

/-- A JSON value as stored in an event dictionary. -/
inductive Value where
  | null
  | int (n : Int)
  | str (s : String)
  | strList (l : List String)
deriving Repr, DecidableEq

/-- A Python dict as an insertion-ordered association list (Python dicts
never hold a duplicate key). -/
abbrev Dict := List (String × Value)

/-- `d.get(k)`: `none` when the key is absent. -/
def dictGet (d : Dict) (k : String) : Option Value :=
  (d.find? (fun p => p.1 = k)).map Prod.snd

/-- `d[k] = v`: replace the value of an existing key in place, otherwise
append the new key at the end. -/
def dictSet (d : Dict) (k : String) (v : Value) : Dict :=
  if d.any (fun p => p.1 = k) then
    d.map (fun p => if p.1 = k then (k, v) else p)
  else
    d ++ [(k, v)]

/-- `d.update(u)`: set each key of `u`, in order, into `d` (shallow
override). -/
def dictUpdate (d u : Dict) : Dict :=
  u.foldl (fun acc kv => dictSet acc kv.1 kv.2) d

/-- Read the `RawEvent` fields out of an event dict the way
`process_event` does with `event.get(...)`: an absent key, a `null`, or a
value of an unexpected shape all read as `none`. -/
def toRawEvent (d : Dict) : RawEvent :=
  let asInt : Option Value → Option Int
    | some (.int n) => some n
    | _ => none
  let asStr : Option Value → Option String
    | some (.str s) => some s
    | _ => none
  let asStrList : Option Value → Option (List String)
    | some (.strList l) => some l
    | _ => none
  { start := asInt (dictGet d "start")
    «end» := asInt (dictGet d "end")
    type := asStr (dictGet d "type")
    score := asInt (dictGet d "score")
    smartDetectTypes := asStrList (dictGet d "smartDetectTypes")
    thumbnail := asStr (dictGet d "thumbnail")
    heatmap := asStr (dictGet d "heatmap") }

/-- `class FixSizeOrderedDict(OrderedDict)`: an insertion-ordered map with
an eviction bound (`_max_size`), generic in its key and value types. -/
structure FixSizeOrderedDict (κ α : Type) where
  entries : List (κ × α)
  maxSize : Nat

/-- The keys of the store, in insertion order. -/
def FixSizeOrderedDict.keys (d : FixSizeOrderedDict κ α) : List κ :=
  d.entries.map Prod.fst

/-- `OrderedDict.get(k)` / `dict.get`: a plain lookup. It never reorders
the entries (`OrderedDict` only reorders through `move_to_end`, which this
class never calls). -/
def FixSizeOrderedDict.get [DecidableEq κ] (d : FixSizeOrderedDict κ α) (k : κ) : Option α :=
  (d.entries.find? (fun p => p.1 = k)).map Prod.snd

/-- `FixSizeOrderedDict.__setitem__`: `OrderedDict.__setitem__` replaces
the value of an existing key in place (the key keeps its position) or
appends a new key at the end; then, when `_max_size > 0` and the length
exceeds it, `popitem(False)` evicts the oldest (first) entry. -/
def FixSizeOrderedDict.setItem [DecidableEq κ] (d : FixSizeOrderedDict κ α) (k : κ) (v : α) :
    FixSizeOrderedDict κ α :=
  let entries :=
    if d.entries.any (fun p => p.1 = k) then
      d.entries.map (fun p => if p.1 = k then (k, v) else p)
    else
      d.entries ++ [(k, v)]
  let entries :=
    if d.maxSize > 0 ∧ entries.length > d.maxSize then entries.tail else entries
  { d with entries := entries }

/-- An operation against the retention store: an insertion
(`__setitem__`) or a read (`get`). -/
inductive StoreOp (κ α : Type) where
  | set (k : κ) (v : α)
  | get (k : κ)

/-- Apply one operation. A `get` reads without modifying the store: plain
`OrderedDict` lookups never change the insertion order. -/
def applyOp [DecidableEq κ] (d : FixSizeOrderedDict κ α) : StoreOp κ α → FixSizeOrderedDict κ α
  | .set k v => d.setItem k v
  | .get _ => d

/-- Run a sequence of store operations. -/
def runOps [DecidableEq κ] (d : FixSizeOrderedDict κ α) (ops : List (StoreOp κ α)) :
    FixSizeOrderedDict κ α :=
  ops.foldl applyOp d

/-- The insertions of an operation sequence, in order. -/
def setsOf : List (StoreOp κ α) → List (κ × α) :=
  List.filterMap (fun op => match op with | .set k v => some (k, v) | .get _ => none)

/-- The store as `ProtectStateMachine.__init__` builds it:
`FixSizeOrderedDict(max_size=MAX_EVENT_HISTORY_IN_STATE_MACHINE)`. -/
def emptyStore (κ α : Type) : FixSizeOrderedDict κ α :=
  ⟨[], MAX_EVENT_HISTORY_IN_STATE_MACHINE⟩

/-- `class ProtectStateMachine`: tracks in-flight events keyed by event
id. -/
structure ProtectStateMachine where
  events : FixSizeOrderedDict String Dict

/-- `ProtectStateMachine.__init__`. -/
def ProtectStateMachine.init : ProtectStateMachine :=
  ⟨emptyStore String Dict⟩

/-- `ProtectStateMachine.add(event_id, event_json)`. -/
def ProtectStateMachine.add (sm : ProtectStateMachine) (event_id : String) (event_json : Dict) :
    ProtectStateMachine :=
  ⟨sm.events.setItem event_id event_json⟩

/-- `ProtectStateMachine.update(event_id, new_event_json)`: look the event
up; `None` when untracked; otherwise merge the update into the tracked
dict in place (the stored object itself is mutated, so the store holds the
merged dict at the key's unchanged position) and return the merged
event. -/
def ProtectStateMachine.update (sm : ProtectStateMachine) (event_id : String)
    (new_event_json : Dict) : Option Dict × ProtectStateMachine :=
  match sm.events.get event_id with
  | none => (none, sm)
  | some event_json =>
      let merged := dictUpdate event_json new_event_json
      (some merged,
        ⟨{ sm.events with
            entries := sm.events.entries.map
              (fun p => if p.1 = event_id then (event_id, merged) else p) }⟩)

/-- The action envelope: `{modelKey, action, id}` (plus `newUpdateId`,
which the code never reads). -/
structure ActionJson where
  modelKey : String
  action : String
  id : String

/-- `event_from_ws_frames(state_machine, minimum_score, action_json,
data_json)`. Returns `none` for the two *Dropped* outcomes (`return None,
None` in the source) together with the resulting state machine; raises
`ValueError` on a non-`event` model key or an unknown action. `if not
event` in the source is falsy both for `None` and for an empty merged
dict. -/
def event_from_ws_frames (sm : ProtectStateMachine) (minimum_score : Int)
    (action_json : ActionJson) (data_json : Dict) :
    Except PyError (Option (Option Value × ProcessedEvent) × ProtectStateMachine) :=
  if action_json.modelKey ≠ "event" then
    .error .badModelKey
  else
    let event_id := action_json.id
    if action_json.action = "add" then
      let camera_id := dictGet data_json "camera"
      if camera_id = none ∨ camera_id = some .null then
        .ok (none, sm)
      else
        let sm := sm.add event_id data_json
        let event := data_json
        match process_event (toRawEvent event) minimum_score LIVE_RING_FROM_WEBSOCKET with
        | .error err => .error err
        | .ok processed => .ok (some (camera_id, processed), sm)
    else if action_json.action = "update" then
      match sm.update event_id data_json with
      | (none, sm') => .ok (none, sm')
      | (some event, sm') =>
          if event.isEmpty then
            .ok (none, sm')
          else
            let camera_id := dictGet event "camera"
            match process_event (toRawEvent event) minimum_score LIVE_RING_FROM_WEBSOCKET with
            | .error err => .error err
            | .ok processed => .ok (some (camera_id, processed), sm')
    else
      .error .badAction

/-- Insertion operations with distinct `Nat` keys, used to instantiate
universally quantified store theorems at a concrete input. -/
def exampleOps (n : Nat) : List (StoreOp Nat Bool) :=
  (List.range n).map (fun i => .set i true)

/-- Concrete event for exercising C10: truthy `end`, `start` of `0`. -/
def evStartZero : RawEvent :=
  { start := some 0, «end» := some 5000, type := some EVENT_MOTION, score := none }

/-- Concrete event for exercising C1: ended `motion` event with a
clearing score. -/
def evEndedMotion : RawEvent :=
  { start := some 1000, «end» := some 2000, type := some EVENT_MOTION, score := some 80 }

/-- Concrete event for the C1 witness: ended `smartDetectZone` event with
a clearing score. -/
def evEndedSmart : RawEvent :=
  { start := some 1000, «end» := some 2000,
    type := some EVENT_SMART_DETECT_ZONE, score := some 80 }

/-- Concrete event for the C2 witness: ended `ring` event inside the
trailing window. -/
def evEndedRing : RawEvent :=
  { start := some 1000, «end» := some 1500, type := some "ring" }

/-- The identity stand-in for `zlib.decompress` in concrete frames whose
deflate flag is clear (where the decoder never calls it). -/
def idInflate : List Nat → Except PyError (List Nat) := fun l => .ok l

/-- A concrete stand-in for `zlib.decompress` that recognizes exactly the
compressed byte string `[9, 9]`, inflating it to `[72, 73]`, and reports
corrupt data otherwise. -/
def toyInflate : List Nat → Except PyError (List Nat) :=
  fun l => if l = [9, 9] then .ok [72, 73] else .error .zlibError

/-- Folding a list of key-value insertions into the store, one
`__setitem__` at a time. -/
def addAll [DecidableEq κ] (d : FixSizeOrderedDict κ α) (l : List (κ × α)) :
    FixSizeOrderedDict κ α :=
  l.foldl (fun acc kv => acc.setItem kv.1 kv.2) d

/-- Concrete tracked event body for store witnesses. -/
def dictMotionLow : Dict := [("type", .str "motion"), ("score", .int 10)]

/-- Concrete update body for store witnesses. -/
def dictScoreHigh : Dict := [("score", .int 80)]

/-- A state machine tracking one event, for the C6 witness. -/
def smTracking : ProtectStateMachine :=
  ⟨⟨[("e1", dictMotionLow)], MAX_EVENT_HISTORY_IN_STATE_MACHINE⟩⟩

/-- A state machine tracking two events, for the C9 witness. -/
def smTwo : ProtectStateMachine :=
  ⟨⟨[("a", dictMotionLow), ("b", dictScoreHigh)], MAX_EVENT_HISTORY_IN_STATE_MACHINE⟩⟩

/-- An event body with no `camera` key, for the C5 witness. -/
def dataNoCamera : Dict := [("type", .str "motion")]

/-! ## Helper lemmas -/

theorem applyThumbnailHeatmap_event_on (event : RawEvent) (pe : ProcessedEvent) :
    (applyThumbnailHeatmap event pe).event_on = pe.event_on := by
  unfold applyThumbnailHeatmap
  rcases event.thumbnail with _ | t <;> rcases event.heatmap with _ | h <;> rfl

theorem applyThumbnailHeatmap_event_ring_on (event : RawEvent) (pe : ProcessedEvent) :
    (applyThumbnailHeatmap event pe).event_ring_on = pe.event_ring_on := by
  unfold applyThumbnailHeatmap
  rcases event.thumbnail with _ | t <;> rcases event.heatmap with _ | h <;> rfl

theorem computeEventLength_isOk (start end_ : Option Int) :
    isOk (computeEventLength start end_) = (!(truthy end_) || start.isSome) := by
  rcases end_ with _ | e
  · simp [computeEventLength, truthy, isOk]
  · by_cases he : e = 0
    · subst he
      rcases start with _ | s <;> simp [computeEventLength, truthy, isOk]
    · rcases start with _ | s <;> simp [computeEventLength, truthy, isOk, he]

theorem computeRingOn_isOk (start end_ : Option Int) (ri : Int)
    (h : (!(truthy end_) || start.isSome) = true) :
    isOk (computeRingOn start end_ ri) = true := by
  unfold computeRingOn
  split
  · rfl
  · next hc =>
    rw [not_or, not_not] at hc
    obtain ⟨-, htr⟩ := hc
    rcases end_ with _ | e
    · simp [truthy] at htr
    · rcases start with _ | s
      · simp [truthy] at htr
        simp [truthy, htr] at h
      · rfl

/-! ## Claim theorems -/

/-- C10: `process_event` completes without an exception exactly when a
truthy `end` comes with a non-`None` `start`: the success of the call, for
every event and every threshold and ring interval, is equivalent to
"`end` falsy, or `start` present". In particular a truthy `end` with
`start` equal to `None` raises, while a `start` of `0` (falsy, so treated
as absent by the `start_time` computation) does not raise. -/
theorem process_event_total_iff_start_present (ev : RawEvent)
    (minimum_score ring_interval : Int) :
    isOk (process_event ev minimum_score ring_interval) =
      (!(truthy ev.«end») || ev.start.isSome) := by
  rw [← computeEventLength_isOk ev.start ev.«end»]
  cases hlen : computeEventLength ev.start ev.«end» with
  | error err =>
      simp only [process_event, hlen]
      rfl
  | ok el =>
      have hok : (!(truthy ev.«end») || ev.start.isSome) = true := by
        rw [← computeEventLength_isOk ev.start ev.«end», hlen]
        rfl
      have hring := computeRingOn_isOk ev.start ev.«end» ring_interval hok
      simp only [process_event, hlen]
      split
      · rfl
      · cases hr : computeRingOn ev.start ev.«end» ring_interval with
        | error err =>
            rw [hr] at hring
            simp [isOk] at hring
        | ok b =>
            simp only [hr]
            rfl

/-- C10, counterexample to the claim as stated: an event whose `start` is
`0` — absent by the claim's truthiness reading — and whose `end` is truthy
does **not** raise: `process_event` returns a record (`float(0)` is
fine; only `float(None)` raises). -/
theorem process_event_start_zero_no_raise_counterexample :
    truthy evStartZero.«end» = true
    ∧ evStartZero.start = some 0
    ∧ isOk (process_event evStartZero 50 (-1)) = true := by
  refine ⟨rfl, rfl, rfl⟩

/-- C1, counterexample to the claim as stated: a `motion` event whose
`end` is present (`2000`, truthy) and whose score `80` clears the
threshold `50` is reported with `event_on = true`, where the claim demands
`event_on = false` for every ended event regardless of score. -/
theorem process_event_ended_event_on_counterexample :
    evEndedMotion.«end» = some 2000
    ∧ (process_event evEndedMotion 50 (-1)).map (fun pe => pe.event_on) = .ok true := by
  refine ⟨rfl, rfl⟩

/-- C1 (amended): for every `motion` or `smartDetectZone` event on which
`process_event` does not raise, `event_on = true` exactly when a score is
present and clears `minimum_score` (inclusive), **irrespective of whether
`end` is present** — the code never consults `end` in the motion branch. -/
theorem process_event_event_on_from_score (ev : RawEvent)
    (minimum_score ring_interval : Int)
    (hty : ev.type = some EVENT_MOTION ∨ ev.type = some EVENT_SMART_DETECT_ZONE)
    (hst : truthy ev.«end» = true → ev.start.isSome = true) :
    ∃ pe, process_event ev minimum_score ring_interval = .ok pe ∧
      (pe.event_on = true ↔ ∃ sc, ev.score = some sc ∧ minimum_score ≤ sc) := by
  have hok : (!(truthy ev.«end») || ev.start.isSome) = true := by
    cases htr : truthy ev.«end»
    · simp
    · simp [hst htr]
  cases hlen : computeEventLength ev.start ev.«end» with
  | error err =>
      have h := computeEventLength_isOk ev.start ev.«end»
      rw [hlen, hok] at h
      simp [isOk] at h
  | ok el =>
      simp only [process_event, hlen]
      rw [if_pos hty]
      refine ⟨_, rfl, ?_⟩
      rw [applyThumbnailHeatmap_event_on]
      rcases hsc : ev.score with _ | sc <;> simp [computeEventOn, hsc, ge_iff_le]

/-- C1, witness: an ended `smartDetectZone` event with score `80` against
threshold `50` projects `event_on = true`. -/
theorem process_event_event_on_from_score_witness :
    ∃ pe, process_event evEndedSmart 50 (-1) = .ok pe ∧
      (pe.event_on = true ↔ ∃ sc, evEndedSmart.score = some sc ∧ 50 ≤ sc) :=
  process_event_event_on_from_score evEndedSmart 50 (-1) (Or.inr rfl) (fun _ => rfl)

/-- C2: in the ring branch (type neither `motion` nor `smartDetectZone`),
with nonnegative epoch-millisecond timestamps and the ring interval
instantiated as the claim's trailing window boundary `now_ms - 3000`:
an event without a truthy `end` projects `event_ring_on = true`
unconditionally, and an event with a truthy `end` (and the `start` that
totality requires) projects `event_ring_on = true` exactly when both
`start` and `end` are at or after `now_ms - 3000`. The source's `-1`
sentinel (`LIVE_RING_FROM_WEBSOCKET`, i.e. `now_ms = 2999`) agrees with
the window test on nonnegative timestamps. -/
theorem process_event_ring_window (ev : RawEvent) (minimum_score now_ms : Int)
    (hty : ¬(ev.type = some EVENT_MOTION ∨ ev.type = some EVENT_SMART_DETECT_ZONE))
    (hs : ∀ s, ev.start = some s → 0 ≤ s)
    (he : ∀ e, ev.«end» = some e → 0 ≤ e) :
    (truthy ev.«end» = false →
      ∃ pe, process_event ev minimum_score (now_ms - 3000) = .ok pe ∧
        pe.event_ring_on = true)
    ∧ (∀ s e, ev.start = some s → ev.«end» = some e → e ≠ 0 →
      ∃ pe, process_event ev minimum_score (now_ms - 3000) = .ok pe ∧
        (pe.event_ring_on = true ↔ (now_ms - 3000 ≤ s ∧ now_ms - 3000 ≤ e))) := by
  constructor
  · intro htr
    have hlen : computeEventLength ev.start ev.«end» = .ok 0 := by
      unfold computeEventLength
      rw [htr]
      simp
    have hring : computeRingOn ev.start ev.«end» (now_ms - 3000) = .ok true := by
      unfold computeRingOn
      rw [if_pos (Or.inr (by simp [htr]))]
    simp only [process_event, hlen]
    rw [if_neg hty]
    simp only [hring]
    exact ⟨_, rfl, by rw [applyThumbnailHeatmap_event_ring_on]⟩
  · intro s e hsome hesome hne
    have htr : truthy ev.«end» = true := by
      rw [hesome]
      simp [truthy, hne]
    have hlen : computeEventLength ev.start ev.«end» =
        .ok (((e : Rat) - (s : Rat)) / 1000) := by
      unfold computeEventLength
      rw [htr, hsome, hesome]
      simp
    by_cases hri : now_ms - 3000 = LIVE_RING_FROM_WEBSOCKET
    · have hring : computeRingOn ev.start ev.«end» (now_ms - 3000) = .ok true := by
        unfold computeRingOn
        rw [if_pos (Or.inl hri)]
      simp only [process_event, hlen]
      rw [if_neg hty]
      simp only [hring]
      refine ⟨_, rfl, ?_⟩
      rw [applyThumbnailHeatmap_event_ring_on]
      have h1 : now_ms - 3000 ≤ s := by
        have := hs s hsome
        rw [hri]
        unfold LIVE_RING_FROM_WEBSOCKET
        omega
      have h2 : now_ms - 3000 ≤ e := by
        have := he e hesome
        rw [hri]
        unfold LIVE_RING_FROM_WEBSOCKET
        omega
      simp [h1, h2]
    · have hring : computeRingOn ev.start ev.«end» (now_ms - 3000) =
          .ok (decide (s ≥ now_ms - 3000) && decide (e ≥ now_ms - 3000)) := by
        unfold computeRingOn
        rw [if_neg (by simp [hri, htr]), hsome, hesome]
      simp only [process_event, hlen]
      rw [if_neg hty]
      simp only [hring]
      refine ⟨_, rfl, ?_⟩
      rw [applyThumbnailHeatmap_event_ring_on]
      simp [ge_iff_le]

/-- C2, witness: an ended ring event (`start = 1000`, `end = 1500`)
projected against `now_ms = 4000` is inside the window exactly when
`1000 ≤ 1000 ∧ 1000 ≤ 1500`. -/
theorem process_event_ring_window_witness :
    ∃ pe, process_event evEndedRing 50 (4000 - 3000) = .ok pe ∧
      (pe.event_ring_on = true ↔ ((4000 : Int) - 3000 ≤ 1000 ∧ (4000 : Int) - 3000 ≤ 1500)) :=
  (process_event_ring_window evEndedRing 50 4000
      (by simp [evEndedRing, EVENT_MOTION, EVENT_SMART_DETECT_ZONE])
      (fun s h => by
        simp only [evEndedRing] at h
        cases h
        decide)
      (fun e h => by
        simp only [evEndedRing] at h
        cases h
        decide)).2
    1000 1500 rfl rfl (by decide)

theorem mkProtectWSPayloadFormat_ok (value : Int) (fmt : ProtectWSPayloadFormat)
    (h : mkProtectWSPayloadFormat value = .ok fmt) :
    (value = 1 ∧ fmt = .JSON) ∨ (value = 2 ∧ fmt = .UTF8String)
      ∨ (value = 3 ∧ fmt = .NodeBuffer) := by
  unfold mkProtectWSPayloadFormat at h
  split_ifs at h with h1 h2 h3 <;> injection h with h <;> simp [*]

theorem mkProtectWSPayloadFormat_unknown (value : Int)
    (h : ¬(value = 1 ∨ value = 2 ∨ value = 3)) :
    mkProtectWSPayloadFormat value = .error .unknownPayloadFormat := by
  push_neg at h
  unfold mkProtectWSPayloadFormat
  rw [if_neg h.1, if_neg h.2.1, if_neg h.2.2]

/-- C4, counterexample to the claim as stated: `decode_ws_frame` does not
fail on a payload length inconsistent with the remaining buffer. A frame
declaring 5 payload bytes with only 2 remaining decodes to the truncated
payload `[65, 66]`, and a frame declaring length `-5` with nothing
remaining decodes to an empty payload, both without error (deflate flag
clear in both). -/
theorem decode_ws_frame_length_counterexample :
    headerPayloadSize [1, 1, 0, 0, 0, 0, 0, 5, 65, 66] 0 = 5
    ∧ decode_ws_frame idInflate [1, 1, 0, 0, 0, 0, 0, 5, 65, 66] 0 =
        .ok ([65, 66], .JSON, 13)
    ∧ headerPayloadSize [1, 1, 0, 0, 255, 255, 255, 251] 0 = -5
    ∧ decode_ws_frame idInflate [1, 1, 0, 0, 255, 255, 255, 251] 0 =
        .ok ([], .JSON, 3) := by
  refine ⟨by decide, rfl, by decide, rfl⟩

/-- C4 (amended): `decode_ws_frame` fails (with `struct.error`) exactly
when fewer than 8 bytes remain at `position`; it never validates the
declared payload length. With the deflate flag clear and a recognized
format tag, decoding succeeds for **every** declared length — negative or
larger than the remaining buffer — returning the Python slice
`frame[position+8 : position+8+length]` (truncated or empty in those
cases) rather than an error. -/
theorem decode_ws_frame_no_length_validation
    (inflate : List Nat → Except PyError (List Nat))
    (frame : List Nat) (position : Nat) :
    (frame.length < position + WS_HEADER_SIZE →
      decode_ws_frame inflate frame position = .error .structError)
    ∧ (position + WS_HEADER_SIZE ≤ frame.length →
       headerDeflated frame position = 0 →
       (headerFormat frame position = 1 ∨ headerFormat frame position = 2 ∨
         headerFormat frame position = 3) →
       ∃ fmt, decode_ws_frame inflate frame position =
         .ok (rawPayload frame position, fmt,
           (position : Int) + (WS_HEADER_SIZE : Int) + headerPayloadSize frame position)) := by
  constructor
  · intro hshort
    unfold decode_ws_frame
    rw [if_neg (by omega)]
  · intro hlen hdef htag
    unfold decode_ws_frame
    rw [if_pos hlen]
    simp only [hdef]
    rcases htag with h | h | h <;>
      simp [h, mkProtectWSPayloadFormat]

/-- C4, witness: the short-buffer conjunct at a 3-byte buffer, and the
no-validation conjunct at a frame declaring 99 payload bytes with none
remaining (which decodes to the empty slice). -/
theorem decode_ws_frame_no_length_validation_witness :
    decode_ws_frame idInflate [1, 1, 0] 0 = .error .structError
    ∧ ∃ fmt, decode_ws_frame idInflate [2, 3, 0, 0, 0, 0, 0, 99] 0 =
        .ok (rawPayload [2, 3, 0, 0, 0, 0, 0, 99] 0, fmt,
          ((0 : Nat) : Int) + (WS_HEADER_SIZE : Int) +
            headerPayloadSize [2, 3, 0, 0, 0, 0, 0, 99] 0) :=
  ⟨(decode_ws_frame_no_length_validation idInflate [1, 1, 0] 0).1 (by decide),
   (decode_ws_frame_no_length_validation idInflate [2, 3, 0, 0, 0, 0, 0, 99] 0).2
     (by decide) (by decide) (Or.inr (Or.inr (by decide)))⟩

/-- C7: the format tag maps to the closed enumeration
{`JSON` = 1, `UTF8String` = 2, `NodeBuffer` = 3} (called `BinaryBuffer`
in the specification): every successful decode used a tag in {1, 2, 3}
with exactly that mapping, and whenever the header is readable and the
payload stage did not itself raise, any other tag value is a hard
`ValueError` from the enum lookup — never skipped or passed through. -/
theorem decode_ws_frame_closed_format_enum
    (inflate : List Nat → Except PyError (List Nat))
    (frame : List Nat) (position : Nat) :
    (∀ payload fmt nextPos,
      decode_ws_frame inflate frame position = .ok (payload, fmt, nextPos) →
      ((headerFormat frame position = 1 ∧ fmt = .JSON)
        ∨ (headerFormat frame position = 2 ∧ fmt = .UTF8String)
        ∨ (headerFormat frame position = 3 ∧ fmt = .NodeBuffer)))
    ∧ (position + WS_HEADER_SIZE ≤ frame.length →
       (headerDeflated frame position = 0 ∨ isOk (inflate (rawPayload frame position)) = true) →
       ¬(headerFormat frame position = 1 ∨ headerFormat frame position = 2 ∨
          headerFormat frame position = 3) →
       decode_ws_frame inflate frame position = .error .unknownPayloadFormat) := by
  constructor
  · intro payload fmt nextPos h
    unfold decode_ws_frame at h
    split at h
    · split at h
      · exact Except.noConfusion h
      · split at h
        · exact Except.noConfusion h
        · next heq =>
            injection h with h
            injection h with h1 h2
            injection h2 with h2 h3
            subst h2
            exact mkProtectWSPayloadFormat_ok _ _ heq
    · exact Except.noConfusion h
  · intro hlen hpay htag
    unfold decode_ws_frame
    rw [if_pos hlen]
    have hmk := mkProtectWSPayloadFormat_unknown _ htag
    rcases hpay with hdef | hinf
    · simp [hdef, hmk]
    · cases hi : inflate (rawPayload frame position) with
      | error err =>
          rw [hi] at hinf
          simp [isOk] at hinf
      | ok p =>
          by_cases hdef : headerDeflated frame position = 0
          · simp [hdef, hmk]
          · simp [hdef, hi, hmk]

/-- C7, witness: a readable frame with unknown tag `9` (deflate flag
clear) decodes to the `UnknownPayloadFormat` error, and a successful
decode of a tag-2 frame is classified `UTF8String`. -/
theorem decode_ws_frame_closed_format_enum_witness :
    decode_ws_frame idInflate [1, 9, 0, 0, 0, 0, 0, 0] 0 = .error .unknownPayloadFormat
    ∧ ((headerFormat [1, 2, 0, 0, 0, 0, 0, 0] 0 = 1 ∧ ProtectWSPayloadFormat.UTF8String = .JSON)
        ∨ (headerFormat [1, 2, 0, 0, 0, 0, 0, 0] 0 = 2
            ∧ ProtectWSPayloadFormat.UTF8String = .UTF8String)
        ∨ (headerFormat [1, 2, 0, 0, 0, 0, 0, 0] 0 = 3
            ∧ ProtectWSPayloadFormat.UTF8String = .NodeBuffer)) :=
  ⟨(decode_ws_frame_closed_format_enum idInflate [1, 9, 0, 0, 0, 0, 0, 0] 0).2
      (by decide) (Or.inl (by decide)) (by decide),
   (decode_ws_frame_closed_format_enum idInflate [1, 2, 0, 0, 0, 0, 0, 0] 0).1
      [] .UTF8String 8 rfl⟩

/-- C8: for a frame whose deflate flag is set and whose raw payload slice
inflates (under the embedded `zlib.decompress`) to a plaintext `p`,
decoding returns exactly `p`; and every successful decode returns
`next_position = position + 8 + payload_length`, the offset immediately
after the payload. -/
theorem decode_ws_frame_inflate_roundtrip (inflate : List Nat → Except PyError (List Nat))
    (frame : List Nat) (position : Nat) (p : List Nat) :
    (position + WS_HEADER_SIZE ≤ frame.length →
     headerDeflated frame position ≠ 0 →
     inflate (rawPayload frame position) = .ok p →
     (headerFormat frame position = 1 ∨ headerFormat frame position = 2 ∨
       headerFormat frame position = 3) →
     ∃ fmt, decode_ws_frame inflate frame position =
       .ok (p, fmt,
         (position : Int) + (WS_HEADER_SIZE : Int) + headerPayloadSize frame position))
    ∧ (∀ payload fmt nextPos,
       decode_ws_frame inflate frame position = .ok (payload, fmt, nextPos) →
       nextPos = (position : Int) + (WS_HEADER_SIZE : Int) + headerPayloadSize frame position) := by
  constructor
  · intro hlen hdef hinf htag
    unfold decode_ws_frame
    rw [if_pos hlen]
    rcases htag with h | h | h <;>
      simp [hdef, hinf, h, mkProtectWSPayloadFormat]
  · intro payload fmt nextPos h
    unfold decode_ws_frame at h
    split at h
    · split at h
      · exact Except.noConfusion h
      · split at h
        · exact Except.noConfusion h
        · injection h with h
          injection h with h1 h2
          injection h2 with h2 h3
          exact h3.symm
    · exact Except.noConfusion h

/-- C8, witness: a deflated frame whose 2-byte compressed payload
`[9, 9]` inflates to `[72, 73]` decodes to exactly `[72, 73]` with
`next_position = 0 + 8 + 2 = 10`. -/
theorem decode_ws_frame_inflate_roundtrip_witness :
    ∃ fmt, decode_ws_frame toyInflate [1, 2, 1, 0, 0, 0, 0, 2, 9, 9] 0 =
      .ok ([72, 73], fmt,
        ((0 : Nat) : Int) + (WS_HEADER_SIZE : Int) +
          headerPayloadSize [1, 2, 1, 0, 0, 0, 0, 2, 9, 9] 0) :=
  (decode_ws_frame_inflate_roundtrip toyInflate [1, 2, 1, 0, 0, 0, 0, 2, 9, 9] 0 [72, 73]).1
    (by decide) (by decide) rfl (Or.inr (Or.inl (by decide)))

theorem dictGet_mapReplace (d : Dict) (k : String) (v : Value) (k' : String) :
    dictGet (d.map (fun p => if p.1 = k then (k, v) else p)) k' =
      if k' = k then (dictGet d k).map (fun _ => v) else dictGet d k' := by
  induction d with
  | nil =>
      simp only [List.map_nil, dictGet, List.find?_nil, Option.map_none]
      split <;> rfl
  | cons p rest ih =>
      simp only [List.map_cons]
      by_cases hpk : p.1 = k
      · rw [if_pos hpk]
        by_cases hk'k : k' = k
        · subst hk'k
          rw [if_pos rfl]
          unfold dictGet
          rw [List.find?_cons_of_pos _ (by simp), List.find?_cons_of_pos _ (by simp [hpk])]
          rfl
        · have hkk' : ¬ k = k' := fun h => hk'k h.symm
          rw [if_neg hk'k]
          unfold dictGet
          rw [List.find?_cons_of_neg _ (by simp [hkk']),
            List.find?_cons_of_neg _ (by simp [hpk, hkk'])]
          have h := ih
          rw [if_neg hk'k] at h
          exact h
      · rw [if_neg hpk]
        by_cases hk'k : k' = k
        · subst hk'k
          rw [if_pos rfl]
          unfold dictGet
          rw [List.find?_cons_of_neg _ (by simp [hpk]),
            List.find?_cons_of_neg _ (by simp [hpk])]
          have h := ih
          rw [if_pos rfl] at h
          exact h
        · rw [if_neg hk'k]
          by_cases hpk' : p.1 = k'
          · unfold dictGet
            rw [List.find?_cons_of_pos _ (by simp [hpk']),
              List.find?_cons_of_pos _ (by simp [hpk'])]
          · unfold dictGet
            rw [List.find?_cons_of_neg _ (by simp [hpk']),
              List.find?_cons_of_neg _ (by simp [hpk'])]
            have h := ih
            rw [if_neg hk'k] at h
            exact h

theorem dictGet_dictSet (d : Dict) (k : String) (v : Value) (k' : String) :
    dictGet (dictSet d k v) k' = if k' = k then some v else dictGet d k' := by
  unfold dictSet
  by_cases hmem : d.any (fun p => p.1 = k)
  · rw [if_pos hmem, dictGet_mapReplace]
    by_cases hk'k : k' = k
    · subst hk'k
      rw [if_pos rfl, if_pos rfl]
      have hsome : (List.find? (fun p => p.1 = k') d).isSome := by
        rw [List.find?_isSome]
        obtain ⟨q, hq, hqk⟩ := List.any_eq_true.mp hmem
        exact ⟨q, hq, hqk⟩
      obtain ⟨w, hw⟩ := Option.isSome_iff_exists.mp hsome
      rw [dictGet, hw]
      rfl
    · rw [if_neg hk'k, if_neg hk'k]
  · rw [if_neg hmem]
    unfold dictGet
    rw [List.find?_append]
    by_cases hk'k : k' = k
    · subst hk'k
      have hnone : List.find? (fun p => p.1 = k') d = none := by
        rw [List.find?_eq_none]
        intro q hq hb
        exact hmem (List.any_eq_true.mpr ⟨q, hq, hb⟩)
      rw [hnone, if_pos rfl]
      simp [List.find?_cons]
    · have hkk' : ¬ k = k' := fun h => hk'k h.symm
      rw [if_neg hk'k]
      have h2 : List.find? (fun p => p.1 = k') [(k, v)] = none := by
        simp [List.find?_cons, hkk']
      rw [h2]
      simp

theorem dictGet_dictUpdate (d u : Dict) (hu : (u.map Prod.fst).Nodup) (k : String) :
    dictGet (dictUpdate d u) k =
      match dictGet u k with
      | some v => some v
      | none => dictGet d k := by
  induction u generalizing d with
  | nil => rfl
  | cons kv rest ih =>
      obtain ⟨k0, v0⟩ := kv
      simp only [List.map_cons, List.nodup_cons] at hu
      obtain ⟨hk0, hnodup⟩ := hu
      have hstep : dictUpdate d ((k0, v0) :: rest) = dictUpdate (dictSet d k0 v0) rest := rfl
      rw [hstep, ih (dictSet d k0 v0) hnodup]
      by_cases hk : k = k0
      · subst hk
        have hfind : List.find? (fun p => p.1 = k) rest = none := by
          rw [List.find?_eq_none]
          intro q hq hb
          exact hk0 (List.mem_map.mpr ⟨q, hq, of_decide_eq_true hb⟩)
        have hrest : dictGet rest k = none := by
          rw [dictGet, hfind]
          rfl
        have hhead : dictGet ((k, v0) :: rest) k = some v0 := by
          rw [dictGet, List.find?_cons_of_pos _ (by simp)]
          rfl
        rw [hrest, hhead, dictGet_dictSet, if_pos rfl]
      · have hhead : dictGet ((k0, v0) :: rest) k = dictGet rest k := by
          rw [dictGet, dictGet,
            List.find?_cons_of_neg _ (by simpa using fun h => hk h.symm)]
        rw [hhead, dictGet_dictSet, if_neg hk]

/-- C6: `ProtectStateMachine.update` merges by `dict.update`, a shallow
field-level override: for a tracked event, the merged record returned
holds, at each key, the update body's value when that key is present in
the update body, and the tracked event's previous value otherwise. (The
Python-dict hypothesis: the update body's keys are duplicate-free.) -/
theorem state_machine_update_shallow_merge (sm : ProtectStateMachine) (event_id : String)
    (new_event_json old : Dict)
    (hold : sm.events.get event_id = some old)
    (hu : (new_event_json.map Prod.fst).Nodup) (k : String) :
    (sm.update event_id new_event_json).1 = some (dictUpdate old new_event_json)
    ∧ dictGet (dictUpdate old new_event_json) k =
        match dictGet new_event_json k with
        | some v => some v
        | none => dictGet old k := by
  constructor
  · unfold ProtectStateMachine.update
    rw [hold]
  · exact dictGet_dictUpdate old new_event_json hu k

/-- C6, witness: updating tracked `{type: "motion", score: 10}` with
`{score: 80}` yields a merge whose `score` is the update's value. -/
theorem state_machine_update_shallow_merge_witness :
    (smTracking.update "e1" dictScoreHigh).1 = some (dictUpdate dictMotionLow dictScoreHigh)
    ∧ dictGet (dictUpdate dictMotionLow dictScoreHigh) "score" =
        match dictGet dictScoreHigh "score" with
        | some v => some v
        | none => dictGet dictMotionLow "score" :=
  state_machine_update_shallow_merge smTracking "e1" dictScoreHigh dictMotionLow rfl
    (by decide) "score"

/-- C5: `event_from_ws_frames` returns the *Dropped* outcome (`None,
None`), not an error, both for an add whose data body has no (or a null)
`camera` and for an update whose event id is untracked; in both cases the
returned state machine is exactly the input one — the retention store is
untouched, and in particular an update for an unknown or evicted id never
inserts an entry. -/
theorem event_from_ws_frames_dropped (sm : ProtectStateMachine) (minimum_score : Int)
    (event_id : String) (data_json : Dict) :
    ((dictGet data_json "camera" = none ∨ dictGet data_json "camera" = some .null) →
      event_from_ws_frames sm minimum_score ⟨"event", "add", event_id⟩ data_json =
        .ok (none, sm))
    ∧ (sm.events.get event_id = none →
      event_from_ws_frames sm minimum_score ⟨"event", "update", event_id⟩ data_json =
        .ok (none, sm)) := by
  constructor
  · intro hcam
    unfold event_from_ws_frames
    simp [hcam]
  · intro hnone
    unfold event_from_ws_frames
    simp only [ProtectStateMachine.update, hnone]
    simp

/-- C5, witness: an add with no `camera` key and an update for an
untracked id against the fresh state machine are both Dropped with the
state unchanged. -/
theorem event_from_ws_frames_dropped_witness :
    event_from_ws_frames ProtectStateMachine.init 50 ⟨"event", "add", "e9"⟩ dataNoCamera =
      .ok (none, ProtectStateMachine.init)
    ∧ event_from_ws_frames ProtectStateMachine.init 50 ⟨"event", "update", "e9"⟩ dataNoCamera =
      .ok (none, ProtectStateMachine.init) :=
  ⟨(event_from_ws_frames_dropped ProtectStateMachine.init 50 "e9" dataNoCamera).1
      (Or.inl rfl),
   (event_from_ws_frames_dropped ProtectStateMachine.init 50 "e9" dataNoCamera).2 rfl⟩

/-- C9: re-adding an event id that the store already tracks replaces the
stored value in place: the entry count is unchanged (so no eviction
fires), and the key sequence — hence each key's position in the insertion
order — is exactly as before; eviction order is therefore fixed by first
insertion, not by the latest add. -/
theorem state_machine_readd_preserves_order (sm : ProtectStateMachine) (event_id : String)
    (event_json : Dict)
    (hmem : event_id ∈ sm.events.keys)
    (hbound : sm.events.entries.length ≤ sm.events.maxSize) :
    (sm.add event_id event_json).events.entries =
      sm.events.entries.map (fun p => if p.1 = event_id then (event_id, event_json) else p)
    ∧ (sm.add event_id event_json).events.keys = sm.events.keys
    ∧ (sm.add event_id event_json).events.entries.length = sm.events.entries.length := by
  have hany : sm.events.entries.any (fun p => p.1 = event_id) = true := by
    rw [List.any_eq_true]
    rw [FixSizeOrderedDict.keys, List.mem_map] at hmem
    obtain ⟨p, hp, hpk⟩ := hmem
    exact ⟨p, hp, by simpa using hpk⟩
  have hentries : (sm.add event_id event_json).events.entries =
      sm.events.entries.map (fun p => if p.1 = event_id then (event_id, event_json) else p) := by
    unfold ProtectStateMachine.add FixSizeOrderedDict.setItem
    simp only [hany, if_pos, List.length_map]
    rw [if_neg (by omega)]
  refine ⟨hentries, ?_, ?_⟩
  · rw [FixSizeOrderedDict.keys, FixSizeOrderedDict.keys, hentries, List.map_map]
    apply List.map_congr_left
    intro p hp
    by_cases hpk : p.1 = event_id
    · simp [hpk]
    · simp [hpk]
  · rw [hentries, List.length_map]

/-- C9, witness: re-adding `"a"` (tracked first, before `"b"`) keeps both
the key order `["a", "b"]` and the entry count `2`. -/
theorem state_machine_readd_preserves_order_witness :
    (smTwo.add "a" dictScoreHigh).events.entries =
      smTwo.events.entries.map (fun p => if p.1 = "a" then ("a", dictScoreHigh) else p)
    ∧ (smTwo.add "a" dictScoreHigh).events.keys = smTwo.events.keys
    ∧ (smTwo.add "a" dictScoreHigh).events.entries.length = smTwo.events.entries.length :=
  state_machine_readd_preserves_order smTwo "a" dictScoreHigh (by decide)
    (by decide)

theorem addAll_maxSize [DecidableEq κ] (d : FixSizeOrderedDict κ α) (l : List (κ × α)) :
    (addAll d l).maxSize = d.maxSize := by
  induction l generalizing d with
  | nil => rfl
  | cons kv rest ih => exact (ih (d.setItem kv.1 kv.2)).trans rfl

theorem length_ite_pop (l : List β) (m : Nat) (hm : m > 0) (h : l.length ≤ m + 1) :
    (if m > 0 ∧ l.length > m then l.tail else l).length ≤ m := by
  split
  · rw [List.length_tail]
    omega
  · next hneg =>
      rw [not_and, not_lt] at hneg
      exact hneg hm

theorem setItem_length_le [DecidableEq κ] (d : FixSizeOrderedDict κ α) (k : κ) (v : α)
    (hmax : d.maxSize > 0) (hlen : d.entries.length ≤ d.maxSize) :
    (d.setItem k v).entries.length ≤ d.maxSize := by
  have h1 : (if d.entries.any (fun p => p.1 = k) then
      d.entries.map (fun p => if p.1 = k then (k, v) else p)
      else d.entries ++ [(k, v)]).length ≤ d.maxSize + 1 := by
    split
    · rw [List.length_map]
      omega
    · rw [List.length_append]
      simp
      omega
  exact length_ite_pop _ d.maxSize hmax h1

theorem addAll_length_le [DecidableEq κ] (d : FixSizeOrderedDict κ α) (l : List (κ × α))
    (hmax : d.maxSize > 0) (hlen : d.entries.length ≤ d.maxSize) :
    (addAll d l).entries.length ≤ d.maxSize := by
  induction l generalizing d with
  | nil => exact hlen
  | cons kv rest ih => exact ih (d.setItem kv.1 kv.2) hmax (setItem_length_le d kv.1 kv.2 hmax hlen)

theorem addAll_fresh_window [DecidableEq κ] (M : Nat) (hM : M > 0) (l : List (κ × α)) :
    (l.map Prod.fst).Nodup →
    (addAll ⟨[], M⟩ l).entries = l.drop (l.length - M) := by
  induction l using List.reverseRecOn with
  | nil =>
      intro _
      simp [addAll]
  | append_singleton l p ih =>
      intro hnodup
      rw [List.map_append, List.nodup_append] at hnodup
      obtain ⟨hnl, -, hdisj⟩ := hnodup
      have hfresh : p.1 ∉ l.map Prod.fst := fun hmem => hdisj hmem (by simp)
      have hent := ih hnl
      have hstep : addAll (⟨[], M⟩ : FixSizeOrderedDict κ α) (l ++ [p]) =
          (addAll ⟨[], M⟩ l).setItem p.1 p.2 := by
        simp [addAll, List.foldl_append]
      have hnotmem : (addAll (⟨[], M⟩ : FixSizeOrderedDict κ α) l).entries.any
          (fun q => q.1 = p.1) = false := by
        rw [List.any_eq_false]
        intro q hq hqp
        apply hfresh
        rw [List.mem_map]
        refine ⟨q, ?_, of_decide_eq_true hqp⟩
        rw [hent] at hq
        exact List.mem_of_mem_drop hq
      have hmsize : (addAll (⟨[], M⟩ : FixSizeOrderedDict κ α) l).maxSize = M :=
        addAll_maxSize _ _
      have hlen_ent : (addAll (⟨[], M⟩ : FixSizeOrderedDict κ α) l).entries.length =
          l.length - (l.length - M) := by
        rw [hent, List.length_drop]
      rw [hstep]
      simp only [FixSizeOrderedDict.setItem, hnotmem, Bool.false_eq_true, if_false, hmsize]
      by_cases hc : M ≤ l.length
      · rw [if_pos ⟨hM, by rw [List.length_append, hlen_ent]; simp; omega⟩]
        rw [hent]
        have hne : l.drop (l.length - M) ≠ [] := by
          have hl : (l.drop (l.length - M)).length = M := by
            rw [List.length_drop]
            omega
          intro hctr
          rw [hctr] at hl
          simp at hl
          omega
        rw [List.tail_append_singleton_of_ne_nil hne, List.tail_drop]
        have hidx : (l ++ [p]).length - M = (l.length - M) + 1 := by
          simp [List.length_append]
          omega
        rw [hidx, List.drop_append_of_le_length (by omega)]
      · rw [if_neg (by
          rintro ⟨-, hgt⟩
          rw [List.length_append, hlen_ent] at hgt
          simp at hgt
          omega)]
        have hidx : (l ++ [p]).length - M = 0 := by
          simp [List.length_append]
          omega
        rw [hidx, List.drop_zero, hent]
        have h0 : l.length - M = 0 := by omega
        rw [h0, List.drop_zero]

theorem runOps_eq_addAll [DecidableEq κ] (d : FixSizeOrderedDict κ α)
    (ops : List (StoreOp κ α)) :
    runOps d ops = addAll d (setsOf ops) := by
  induction ops generalizing d with
  | nil => rfl
  | cons op rest ih =>
      cases op with
      | set k v =>
          show runOps (d.setItem k v) rest = addAll d (setsOf (.set k v :: rest))
          rw [ih]
          rfl
      | get k =>
          show runOps d rest = addAll d (setsOf (.get k :: rest))
          rw [ih]
          rfl

theorem setsOf_set_map (l : List Nat) :
    setsOf (l.map (fun i => StoreOp.set (α := Bool) i true)) = l.map (fun i => (i, true)) := by
  induction l with
  | nil => rfl
  | cons a t ih =>
      simp only [List.map_cons]
      show (a, true) :: setsOf (t.map (fun i => StoreOp.set (α := Bool) i true)) = _
      rw [ih]

theorem setsOf_exampleOps (n : Nat) :
    setsOf (exampleOps n) = (List.range n).map (fun i => (i, true)) :=
  setsOf_set_map (List.range n)

/-- C3: the retention store, built as `ProtectStateMachine.__init__` does
(`max_size = MAX_EVENT_HISTORY_IN_STATE_MACHINE = 512`), never holds more
than 512 entries after any sequence of operations; lookups are embedded
as state-preserving (`OrderedDict` lookups never reorder), so the final
state depends only on the insertions. After inserting `512 + k` distinct
keys, the entries are exactly the last 512 insertions in their original
relative order, and each of the oldest `k` keys looks up to `none`. -/
theorem retention_store_bound_and_window (κ α : Type) [DecidableEq κ]
    (ops : List (StoreOp κ α)) (k : Nat) :
    (runOps (emptyStore κ α) ops).entries.length ≤ MAX_EVENT_HISTORY_IN_STATE_MACHINE
    ∧ (((setsOf ops).map Prod.fst).Nodup →
        (setsOf ops).length = MAX_EVENT_HISTORY_IN_STATE_MACHINE + k →
        (runOps (emptyStore κ α) ops).entries = (setsOf ops).drop k
        ∧ ∀ key ∈ ((setsOf ops).take k).map Prod.fst,
            (runOps (emptyStore κ α) ops).get key = none) := by
  have hM : MAX_EVENT_HISTORY_IN_STATE_MACHINE > 0 := by decide
  have hempty : emptyStore κ α =
      (⟨[], MAX_EVENT_HISTORY_IN_STATE_MACHINE⟩ : FixSizeOrderedDict κ α) := rfl
  rw [runOps_eq_addAll, hempty]
  constructor
  · exact addAll_length_le _ _ hM (by simp)
  · intro hnodup hlen
    have hent := addAll_fresh_window MAX_EVENT_HISTORY_IN_STATE_MACHINE hM (setsOf ops) hnodup
    have hidx : (setsOf ops).length - MAX_EVENT_HISTORY_IN_STATE_MACHINE = k := by omega
    rw [hidx] at hent
    refine ⟨hent, ?_⟩
    intro key hkey
    have hsplit : (setsOf ops).map (Prod.fst (α := κ) (β := α)) =
        ((setsOf ops).take k).map Prod.fst ++ ((setsOf ops).drop k).map Prod.fst := by
      rw [← List.map_append, List.take_append_drop]
    rw [hsplit, List.nodup_append] at hnodup
    obtain ⟨-, -, hdisj⟩ := hnodup
    have hnotin : key ∉ ((setsOf ops).drop k).map Prod.fst := fun hin => hdisj hkey hin
    have hfind : ((setsOf ops).drop k).find? (fun p => p.1 = key) = none := by
      rw [List.find?_eq_none]
      intro q hq hqk
      exact hnotin (List.mem_map.mpr ⟨q, hq, of_decide_eq_true hqk⟩)
    unfold FixSizeOrderedDict.get
    rw [hent, hfind]
    rfl

set_option maxRecDepth 4000 in
/-- C3, witness: pushing 513 distinct keys into the fresh store leaves at
most 512 entries, which are exactly the insertions with the oldest one
dropped. -/
theorem retention_store_bound_and_window_witness :
    (runOps (emptyStore Nat Bool) (exampleOps 513)).entries.length ≤
      MAX_EVENT_HISTORY_IN_STATE_MACHINE
    ∧ (runOps (emptyStore Nat Bool) (exampleOps 513)).entries =
        (setsOf (exampleOps 513)).drop 1 :=
  ⟨(retention_store_bound_and_window Nat Bool (exampleOps 513) 1).1,
   ((retention_store_bound_and_window Nat Bool (exampleOps 513) 1).2
      (by
        rw [setsOf_exampleOps, List.map_map]
        simpa [Function.comp] using List.nodup_range 513)
      (by
        rw [setsOf_exampleOps]
        simp [MAX_EVENT_HISTORY_IN_STATE_MACHINE, MAX_SUPPORTED_CAMERAS])).1⟩

end UnifiData
